import Mathlib

/-!
Shallow embedding of the `ts-in-memory-debounce` repository:

* an in-memory record store (`src/unnamed/part_001`, class `InMemoryStorage`
  with full validation, and the basic variant in `src/src/storage/in-memory.ts`);
* a debounce wrapper (`src/src/utils/debounce.ts`, always-deferred variant,
  and the fast-path variant concatenated into `src/src/storage/in-memory.ts`).

Machine strings are Lean `String`s, JS arrays are `List`s, the JS `Map` is a
list of records keyed by their `id` field in insertion order (JS `Map`
preserves insertion order; `set` on an existing key replaces in place).
Thrown `StorageError`s are modelled by an error-code inductive carried in
`Except` / in an explicit `(state, Except)` pair so that "mutated before the
throw" is observable.
-/

namespace Store

/-- A stored record: `{ id: string; tags: string[] }` (part_000, `Record`). -/
structure Rec where
  id : String
  tags : List String
deriving Repr, DecidableEq

/-- `QueryCriteria` (part_000): optional `id` and optional `tags` filters.
`none` models an absent field; `some []` models an explicitly empty array. -/
structure QueryCriteria where
  id : Option String := none
  tags : Option (List String) := none
deriving Repr, DecidableEq

/-- The `code` field of the thrown `StorageError`s (part_001). -/
inductive ErrCode where
  | INVALID_RECORD
  | INVALID_ID
  | INVALID_TAGS
  | INVALID_TAG_TYPE (i : Nat)
  | DUPLICATE_ID
  | RECORD_NOT_FOUND
  | INVALID_CRITERIA_ID
  | INVALID_CRITERIA_TAGS
  | INVALID_CRITERIA_TAG_TYPE (i : Nat)
deriving Repr, DecidableEq

/-- Internal state of an `InMemoryStorage`: the values of
`records : Map<string, Record>` in insertion order.  The map key of each
entry is the record's own `id` (the code only ever calls
`records.set(record.id, ...)`). -/
abbrev Storage := List Rec

/-- `records.has(id)`. -/
def hasId (st : Storage) (id : String) : Bool :=
  st.any (fun r => r.id == id)

/-- `records.set(id, rec)` where `id = rec.id`: replace in place when the key
is present (JS `Map` keeps the original insertion position), else append. -/
def setRec (st : Storage) (rec : Rec) : Storage :=
  if hasId st rec.id then
    st.map (fun r => if r.id == rec.id then rec else r)
  else
    st ++ [rec]

/-- `records.delete(id)`: remove the entry with that key, reporting whether
one was present. -/
def deleteRec (st : Storage) (id : String) : Storage :=
  st.filter (fun r => r.id != id)

/-- The id check `!id || typeof id !== 'string' || !id.trim()` on a
well-typed string rejects exactly the strings whose `trim()` is empty,
i.e. the strings all of whose characters are whitespace (the empty string
included). -/
def isBlank (id : String) : Bool :=
  id.data.all (fun ch => ch.isWhitespace)

/-- `validateRecord` (part_001 lines 132-151), restricted to well-typed
inputs: the `typeof`/`Array.isArray` checks always pass for a Lean `Rec`,
so only the non-empty / non-whitespace id check can fail. -/
def validateRecord (r : Rec) : Option ErrCode :=
  if isBlank r.id then some .INVALID_ID else none

/-- `validateQueryCriteria` (part_001 lines 153-169), restricted to
well-typed inputs: only the criteria-id check can fail. -/
def validateQueryCriteria (c : QueryCriteria) : Option ErrCode :=
  match c.id with
  | some cid => if isBlank cid then some .INVALID_CRITERIA_ID else none
  | none => none

/-- `matchesCriteria` (part_001 lines 171-176).  JS truthiness: `!criteria.id`
is true exactly when the id is absent or the empty string; an absent or empty
`tags` imposes no constraint, otherwise every criteria tag must occur in the
record's tags. -/
def matchesCriteria (r : Rec) (c : QueryCriteria) : Bool :=
  let idMatch :=
    match c.id with
    | none => true
    | some cid => cid == "" || r.id == cid
  let tagsMatch :=
    match c.tags with
    | none => true
    | some ts => ts.isEmpty || ts.all (fun tag => r.tags.contains tag)
  idMatch && tagsMatch

/-- `copyRecord` (part_001 lines 186-191): field-wise copy with a fresh tags
array.  On values it is the identity. -/
def copyRecord (r : Rec) : Rec :=
  { id := r.id, tags := r.tags }

/-- `getAllRecords` (part_001 lines 178-184). -/
def getAllRecords (st : Storage) : List Rec :=
  st.map copyRecord

/-- `add` (part_001 lines 27-41).  The state is threaded explicitly: the
returned state is the value of `this.records` when the call returns or
throws, so "throws before any mutation" is visible in the result. -/
def add (st : Storage) (r : Rec) : Storage × Except ErrCode Unit :=
  match validateRecord r with
  | some e => (st, .error e)
  | none =>
    if hasId st r.id then
      (st, .error .DUPLICATE_ID)
    else
      (setRec st (copyRecord r), .ok ())

/-- `update` (part_001 lines 88-101). -/
def update (st : Storage) (r : Rec) : Storage × Except ErrCode Unit :=
  match validateRecord r with
  | some e => (st, .error e)
  | none =>
    if !hasId st r.id then
      (st, .error .RECORD_NOT_FOUND)
    else
      (setRec st (copyRecord r), .ok ())

/-- `remove` (part_001 lines 75-80): `InvalidId` for a malformed id
(`!id || typeof id !== 'string' || !id.trim()` rejects exactly ids whose
trim is empty), otherwise `records.delete(id)`. -/
def remove (st : Storage) (id : String) :
    Storage × Except ErrCode Bool :=
  if isBlank id then
    (st, .error .INVALID_ID)
  else
    (deleteRec st id, .ok (hasId st id))

/-- `exists` (part_001 lines 109-114): `false` for a malformed id
(well-typed: only the empty string trips `!id`), else `records.has(id)`.
Never throws. -/
def existsId (st : Storage) (id : String) : Bool :=
  if id = "" then false else hasId st id

/-- `size` (part_001 lines 121-123). -/
def size (st : Storage) : Nat :=
  st.length

/-- `clear` (part_001 lines 128-130). -/
def clear (_st : Storage) : Storage :=
  []

/-- `query` (part_001 lines 50-67).  Validates the criteria when present;
with no criteria, or both fields JS-falsy (`!criteria.id && !criteria.tags`:
the empty-string id is falsy, an empty tags *array* is truthy), returns all
records; otherwise returns a copy of each record matching the criteria. -/
def query (st : Storage) (c : Option QueryCriteria) :
    Except ErrCode (List Rec) :=
  match c with
  | none => .ok (getAllRecords st)
  | some crit =>
    match validateQueryCriteria crit with
    | some e => .error e
    | none =>
      if ((crit.id = none ∨ crit.id = some "") ∧ crit.tags = none :
          Prop) then
        .ok (getAllRecords st)
      else
        .ok ((st.filter (fun r => matchesCriteria r crit)).map copyRecord)

/-- Spec-side matching predicate, written from the spec's words: a record
matches iff its id equals `criteria.id` when that is given, and its tag list
contains every element of `criteria.tags` when given (an empty list imposing
no constraint). -/
def specMatches (r : Rec) (c : QueryCriteria) : Bool :=
  (match c.id with
   | none => true
   | some cid => r.id == cid) &&
  (match c.tags with
   | none => true
   | some ts => ts.all (fun tag => r.tags.contains tag))

end Store

namespace Debounce

/-!
Debounce models.  Time is a `Nat` (milliseconds).  `κ` is the type of the
JS `this` context (stored as `Option κ`, `none` being the initial `null`),
`α` the type of the argument tuple, `ρ` the target's return type, and
`fn : Option κ → α → ρ` the wrapped target.  A state records the three
closure variables of `debounce` plus the one live scheduler timer (the
spec's environment registers at most one delayed callback per instance) and
a log of the target invocations performed so far.  `timeoutSet` is the
truthiness of the `timeout` variable; after a timer fires naturally the
variable still holds the spent id, so `timeoutSet` stays `true` while
`scheduled` (the live timer) becomes `none`.
-/

/-- Closure state of the always-deferred variant (`src/src/utils/debounce.ts`). -/
structure DebState (κ α : Type) where
  timeoutSet : Bool
  scheduled : Option Nat
  lastArgs : Option α
  lastThis : Option κ
  log : List (Nat × Option κ × α)
deriving Repr, DecidableEq

/-- Initial closure state: `timeout = null`, `lastArgs = null`, `lastThis = null`. -/
def dInit (κ α : Type) : DebState κ α :=
  { timeoutSet := false, scheduled := none, lastArgs := none,
    lastThis := none, log := [] }

variable {κ α ρ : Type}

/-- `invoke` (debounce.ts lines 53-60), executed at time `t`: if arguments
are recorded, apply `fn` to them (logged), clear them and return the result;
otherwise return `undefined`. -/
def dInvoke (fn : Option κ → α → ρ) (t : Nat) (s : DebState κ α) :
    DebState κ α × Option ρ :=
  match s.lastArgs with
  | some a =>
    ({ s with lastArgs := none, log := s.log ++ [(t, s.lastThis, a)] },
     some (fn s.lastThis a))
  | none => (s, none)

/-- The wrapped callable (debounce.ts lines 62-72) invoked at time `t` with
context `c` and arguments `a`: record them, clear any armed timer, arm a
fresh timer for `t + wait`.  Never calls the target synchronously. -/
def dCall (wait : Nat) (t : Nat) (c : κ) (a : α) (s : DebState κ α) :
    DebState κ α :=
  let s := { s with lastArgs := some a, lastThis := some c }
  let s := if s.timeoutSet then { s with scheduled := none } else s
  { s with scheduled := some (t + wait), timeoutSet := true }

/-- `forceNext` (debounce.ts lines 74-80), at time `t`: disarm any timer
(nulling the variable), then `invoke()` (result discarded). -/
def dForceNext (fn : Option κ → α → ρ) (t : Nat) (s : DebState κ α) :
    DebState κ α :=
  let s := if s.timeoutSet then
      { s with scheduled := none, timeoutSet := false } else s
  (dInvoke fn t s).1

/-- `cancel` (debounce.ts lines 82-86): clear any timer, null the variable,
drop the recorded arguments. -/
def dCancel (s : DebState κ α) : DebState κ α :=
  let s := if s.timeoutSet then { s with scheduled := none } else s
  { s with timeoutSet := false, lastArgs := none }

/-- `flush` (debounce.ts lines 88-95), at time `t`: if the `timeout`
variable is set, clear it and return `invoke()`; else return `undefined`. -/
def dFlush (fn : Option κ → α → ρ) (t : Nat) (s : DebState κ α) :
    DebState κ α × Option ρ :=
  if s.timeoutSet then
    dInvoke fn t { s with scheduled := none, timeoutSet := false }
  else
    (s, none)

/-- The armed timer fires at its scheduled time: the scheduler runs
`invoke`; the timer is spent (`scheduled := none`) but the `timeout`
variable is not nulled by the callback. -/
def dFire (fn : Option κ → α → ρ) (s : DebState κ α) : DebState κ α :=
  match s.scheduled with
  | some u => { (dInvoke fn u s).1 with scheduled := none }
  | none => s

/-- External events driving a debounced instance, each time-stamped. -/
inductive DebEvent (κ α : Type) where
  | call (t : Nat) (c : κ) (a : α)
  | flush (t : Nat)
  | forceNext (t : Nat)
  | cancel (t : Nat)
deriving Repr

/-- Timestamp of an event. -/
def DebEvent.time : DebEvent κ α → Nat
  | .call t _ _ => t
  | .flush t => t
  | .forceNext t => t
  | .cancel t => t

/-- Process one event (assuming a time-ordered trace): first let the armed
timer fire if its deadline is not after the event, then run the event. -/
def dStep (fn : Option κ → α → ρ) (wait : Nat)
    (s : DebState κ α) (e : DebEvent κ α) : DebState κ α :=
  let s := match s.scheduled with
    | some u => if u ≤ e.time then dFire fn s else s
    | none => s
  match e with
  | .call t c a => dCall wait t c a s
  | .flush t => (dFlush fn t s).1
  | .forceNext t => dForceNext fn t s
  | .cancel _ => dCancel s

/-- Run a time-ordered trace from the initial state, then let the armed
timer fire if it is due by `endT`. -/
def dRun (fn : Option κ → α → ρ) (wait : Nat)
    (es : List (DebEvent κ α)) (endT : Nat) : DebState κ α :=
  let s := es.foldl (dStep fn wait) (dInit κ α)
  match s.scheduled with
  | some u => if u ≤ endT then dFire fn s else s
  | none => s

/-- Closure state of the fast-path variant (the `debounce` concatenated into
`src/src/storage/in-memory.ts`), which additionally tracks
`lastCallTime` (initially `0`). -/
structure FastState (κ α : Type) where
  timeoutSet : Bool
  scheduled : Option Nat
  lastArgs : Option α
  lastThis : Option κ
  lastCallTime : Nat
  log : List (Nat × Option κ × α)
deriving Repr, DecidableEq

/-- Initial fast-path state: `lastCallTime = 0`. -/
def fInit (κ α : Type) : FastState κ α :=
  { timeoutSet := false, scheduled := none, lastArgs := none,
    lastThis := none, lastCallTime := 0, log := [] }

/-- `invoke` (in-memory.ts lines 99-107): sets `lastCallTime = Date.now()`
unconditionally, then delivers the recorded arguments if any. -/
def fInvoke (fn : Option κ → α → ρ) (t : Nat) (s : FastState κ α) :
    FastState κ α × Option ρ :=
  let s := { s with lastCallTime := t }
  match s.lastArgs with
  | some a =>
    ({ s with lastArgs := none, log := s.log ++ [(t, s.lastThis, a)] },
     some (fn s.lastThis a))
  | none => (s, none)

/-- The fast-path wrapped callable (in-memory.ts lines 109-127): record the
call; if `now - lastCallTime >= wait`, return `invoke()` synchronously
(leaving any armed timer untouched); otherwise re-arm the timer.  Time is
monotone in every trace we consider, so Nat subtraction agrees with the JS
number subtraction. -/
def fCall (fn : Option κ → α → ρ) (wait : Nat) (t : Nat) (c : κ) (a : α)
    (s : FastState κ α) : FastState κ α × Option ρ :=
  let s := { s with lastArgs := some a, lastThis := some c }
  if wait ≤ t - s.lastCallTime then
    fInvoke fn t s
  else
    let s := if s.timeoutSet then { s with scheduled := none } else s
    ({ s with scheduled := some (t + wait), timeoutSet := true }, none)

/-- Fast-path `forceNext` (in-memory.ts lines 129-135). -/
def fForceNext (fn : Option κ → α → ρ) (t : Nat) (s : FastState κ α) :
    FastState κ α :=
  let s := if s.timeoutSet then
      { s with scheduled := none, timeoutSet := false } else s
  (fInvoke fn t s).1

/-- Fast-path `flush` (in-memory.ts lines 143-150). -/
def fFlush (fn : Option κ → α → ρ) (t : Nat) (s : FastState κ α) :
    FastState κ α × Option ρ :=
  if s.timeoutSet then
    fInvoke fn t { s with scheduled := none, timeoutSet := false }
  else
    (s, none)

/-- Fast-path timer firing at its scheduled time. -/
def fFire (fn : Option κ → α → ρ) (s : FastState κ α) : FastState κ α :=
  match s.scheduled with
  | some u => { (fInvoke fn u s).1 with scheduled := none }
  | none => s

end Debounce

namespace RefModel

/-!
Reference-level model for the copy-isolation claim.  JS arrays are
heap-allocated and mutable; a record object holds its `id` (strings are
immutable values) and a heap address of its tags array.  The heap grows by
allocation only; `hWrite` is an external caller mutating an array in place.
-/

/-- The heap of tags arrays, indexed by allocation order. -/
abbrev Heap := List (List String)

/-- Read the array at address `a` (callers only use valid addresses). -/
def hRead (h : Heap) (a : Nat) : List String :=
  h.getD a []

/-- In-place mutation of the array at address `a`. -/
def hWrite (h : Heap) (a : Nat) (v : List String) : Heap :=
  h.set a v

/-- Allocate a fresh array holding `v`; returns the new heap and address. -/
def hAlloc (h : Heap) (v : List String) : Heap × Nat :=
  (h ++ [v], h.length)

/-- A record object: immutable `id` string plus the address of its tags
array. -/
structure RecObj where
  id : String
  tags : Nat
deriving Repr, DecidableEq

/-- The observable content of the store under heap `h`: each stored record's
id together with the current value of its tags array.  This is exactly what
any query (which copies values out) can ever report. -/
def obs (h : Heap) (st : List RecObj) : List (String × List String) :=
  st.map (fun r => (r.id, hRead h r.tags))

/-- The `recordCopy` ingress copy of `add`/`update` (part_001 lines 34-40,
94-98): `{ id: record.id, tags: [...record.tags] }` reads the caller's tags
array and allocates a fresh one with the same contents. -/
def copyIn (h : Heap) (r : RecObj) : Heap × RecObj :=
  let (h', a) := hAlloc h (hRead h r.tags)
  (h', { id := r.id, tags := a })

/-- `add` of the validated store (part_001 lines 27-41) at reference level:
after validation and the duplicate check, insert the ingress copy.
Validation touches no array, so the error paths leave the heap and the
store as they were. -/
def fullAdd (h : Heap) (st : List RecObj) (r : RecObj) :
    (Heap × List RecObj) × Except Store.ErrCode Unit :=
  if Store.isBlank r.id then
    ((h, st), .error .INVALID_ID)
  else if st.any (fun s => s.id == r.id) then
    ((h, st), .error .DUPLICATE_ID)
  else
    let (h', rc) := copyIn h r
    ((h', st ++ [rc]), .ok ())

/-- `copyRecord` on egress (part_001 lines 186-191): allocate a fresh array
with the stored contents and hand out a new record object. -/
def copyOut (h : Heap) (r : RecObj) : Heap × RecObj :=
  let (h', a) := hAlloc h (hRead h r.tags)
  (h', { id := r.id, tags := a })

/-- The result-collecting loop of the validated `query`/`getAllRecords`
(part_001 lines 59-64, 178-184) at reference level over the records `st`
that pass the criteria filter: push an egress copy of each.  The filter
itself reads arrays without mutating, so it is applied before this loop. -/
def fullQueryAux (h : Heap) : List RecObj → Heap × List RecObj
  | [] => (h, [])
  | r :: rest =>
    let (h', rc) := copyOut h r
    let (h'', out) := fullQueryAux h' rest
    (h'', rc :: out)

/-- `add` of the basic variant (src/src/storage/in-memory.ts lines 17-22):
after the duplicate check, `records.set(record.id, record)` stores the
caller's record object itself — no copy, the heap is untouched. -/
def basicAdd (h : Heap) (st : List RecObj) (r : RecObj) :
    (Heap × List RecObj) × Except Store.ErrCode Unit :=
  if st.any (fun s => s.id == r.id) then
    ((h, st), .error .DUPLICATE_ID)
  else
    ((h, st ++ [r]), .ok ())

/-- `query` of the basic variant (src/src/storage/in-memory.ts lines 31-45)
with no criteria: `Array.from(this.records.values())` returns the stored
record objects themselves — no copies. -/
def basicQueryAll (st : List RecObj) : List RecObj :=
  st

end RefModel

namespace Store

theorem isBlank_empty : isBlank "" = true := rfl

theorem ne_empty_of_not_blank {id : String} (h : isBlank id = false) :
    id ≠ "" := by
  intro he
  rw [he, isBlank_empty] at h
  exact Bool.true_eq_false.mp h

theorem copyRecord_eq (r : Rec) : copyRecord r = r := rfl

theorem map_copyRecord (l : List Rec) : l.map copyRecord = l := by
  induction l with
  | nil => rfl
  | cons a l ih => simp [ih, copyRecord_eq]

theorem getAllRecords_eq (st : Storage) : getAllRecords st = st :=
  map_copyRecord st

theorem hasId_false_iff {st : Storage} {id : String} :
    hasId st id = false ↔ ∀ r ∈ st, r.id ≠ id := by
  simp [hasId, List.any_eq_false]

/-- On criteria whose id is a nonempty string (or absent), the code's
`matchesCriteria` agrees with the spec's matching predicate. -/
theorem matches_eq_spec (r : Rec) (c : QueryCriteria)
    (hid : ∀ cid, c.id = some cid → cid ≠ "") :
    matchesCriteria r c = specMatches r c := by
  unfold matchesCriteria specMatches
  cases hc : c.id with
  | none =>
    cases ht : c.tags with
    | none => rfl
    | some ts => cases ts <;> simp
  | some cid =>
    have hne : (cid == "") = false := by
      simpa using hid cid hc
    cases ht : c.tags with
    | none => simp [hne]
    | some ts => cases ts <;> simp [hne]

/-- On validated criteria, `query` returns exactly the records matching the
spec predicate (values, since copies are value-identical). -/
theorem query_spec_eq (st : Storage) (c : QueryCriteria)
    (hid : ∀ cid, c.id = some cid → isBlank cid = false) :
    query st (some c) = .ok (st.filter (fun r => specMatches r c)) := by
  have hval : validateQueryCriteria c = none := by
    unfold validateQueryCriteria
    cases hc : c.id with
    | none => rfl
    | some cid => simp [hid cid hc]
  have hne : ∀ cid, c.id = some cid → cid ≠ "" :=
    fun cid h => ne_empty_of_not_blank (hid cid h)
  have hfilter : st.filter (fun r => matchesCriteria r c) =
      st.filter (fun r => specMatches r c) :=
    List.filter_congr (fun r _ => matches_eq_spec r c hne)
  simp only [query]
  rw [hval]
  by_cases hcond : ((c.id = none ∨ c.id = some "") ∧ c.tags = none : Prop)
  · obtain ⟨hcid, hcts⟩ := hcond
    have hcid' : c.id = none := by
      rcases hcid with h | h
      · exact h
      · exact absurd rfl (hne "" h)
    rw [if_pos ⟨hcid, hcts⟩, getAllRecords_eq]
    have : ∀ r ∈ st, specMatches r c = true := by
      intro r _
      simp [specMatches, hcid', hcts]
    rw [List.filter_eq_self.mpr this]
  · rw [if_neg hcond, hfilter, map_copyRecord]

end Store

/-- C1: for every valid record `r` whose id is not already present, `add r`
succeeds and a subsequent `query {id := r.id}` returns exactly the one
record `r` (same id, same tag list in the same order). -/
theorem C1_add_then_query_by_id (st : Store.Storage) (r : Store.Rec)
    (hvalid : Store.isBlank r.id = false)
    (hfresh : Store.hasId st r.id = false) :
    (Store.add st r).2 = .ok () ∧
    Store.query (Store.add st r).1
        (some { id := some r.id, tags := none }) = .ok [r] := by
  have hstore : (Store.add st r).1 = st ++ [r] := by
    simp [Store.add, Store.validateRecord, hvalid, hfresh, Store.setRec,
      Store.copyRecord_eq]
  have hsnd : (Store.add st r).2 = .ok () := by
    simp [Store.add, Store.validateRecord, hvalid, hfresh]
  refine ⟨hsnd, ?_⟩
  rw [hstore,
    Store.query_spec_eq (st ++ [r]) { id := some r.id, tags := none }
      (by intro cid h; cases h; exact hvalid)]
  have hne : ∀ r' ∈ st, r'.id ≠ r.id := Store.hasId_false_iff.mp hfresh
  have : (st ++ [r]).filter
      (fun r' => Store.specMatches r' { id := some r.id, tags := none }) =
      [r] := by
    rw [List.filter_append]
    have h1 : st.filter
        (fun r' => Store.specMatches r' { id := some r.id, tags := none }) =
        [] := by
      rw [List.filter_eq_nil_iff]
      intro r' hr'
      simp [Store.specMatches, hne r' hr']
    have h2 : [r].filter
        (fun r' => Store.specMatches r' { id := some r.id, tags := none }) =
        [r] := by
      simp [Store.specMatches]
    rw [h1, h2, List.nil_append]
  rw [this]

/-- Witness for C1 at a concrete input. -/
theorem C1_add_then_query_by_id_witness :
    (Store.add [] ⟨"1", ["a", "b"]⟩).2 = .ok () ∧
    Store.query (Store.add [] ⟨"1", ["a", "b"]⟩).1
        (some { id := some "1", tags := none }) = .ok [⟨"1", ["a", "b"]⟩] :=
  C1_add_then_query_by_id [] ⟨"1", ["a", "b"]⟩ (by decide) (by decide)

namespace Store

/-- Adding a valid record with a fresh id appends it to the store. -/
theorem add_fresh_eq {st : Storage} {r : Rec}
    (hv : isBlank r.id = false) (hf : hasId st r.id = false) :
    add st r = (st ++ [r], .ok ()) := by
  simp [add, validateRecord, hv, hf, setRec, copyRecord_eq]

theorem hasId_append_self (st : Storage) (r : Rec) :
    hasId (st ++ [r]) r.id = true := by
  simp [hasId]

theorem deleteRec_append_self {st : Storage} {r : Rec}
    (hf : hasId st r.id = false) :
    deleteRec (st ++ [r]) r.id = st := by
  have hne : ∀ r' ∈ st, r'.id ≠ r.id := hasId_false_iff.mp hf
  unfold deleteRec
  rw [List.filter_append]
  have h1 : st.filter (fun r' => r'.id != r.id) = st :=
    List.filter_eq_self.mpr (fun r' hr' => by simp [hne r' hr'])
  have h2 : [r].filter (fun r' => r'.id != r.id) = [] := by simp
  rw [h1, h2, List.append_nil]

end Store

/-- C2: on a validated criteria, `query` returns exactly the stored records
matching the spec predicate (id equality when given, tag-superset when
given); query with no criteria, and query with an empty tags array, return
every record. -/
theorem C2_query_filter_semantics (st : Store.Storage)
    (c : Store.QueryCriteria)
    (hid : ∀ cid, c.id = some cid → Store.isBlank cid = false) :
    Store.query st (some c) =
      .ok (st.filter (fun r => Store.specMatches r c)) ∧
    Store.query st none = .ok st ∧
    Store.query st (some { id := none, tags := some [] }) = .ok st := by
  refine ⟨Store.query_spec_eq st c hid, ?_, ?_⟩
  · simp [Store.query, Store.getAllRecords_eq]
  · rw [Store.query_spec_eq st { id := none, tags := some [] }
      (fun cid h => by cases h)]
    have hall : ∀ r ∈ st,
        Store.specMatches r { id := none, tags := some [] } = true := by
      intro r _
      simp [Store.specMatches]
    rw [List.filter_eq_self.mpr hall]

/-- Witness for C2 at a concrete input: only the record carrying both
required tags matches. -/
theorem C2_query_filter_semantics_witness :
    Store.query [⟨"1", ["a", "b"]⟩, ⟨"2", ["b", "c"]⟩, ⟨"3", ["a", "c"]⟩]
        (some { id := none, tags := some ["a", "c"] }) =
      .ok [⟨"3", ["a", "c"]⟩] := by
  have h := (C2_query_filter_semantics
    [⟨"1", ["a", "b"]⟩, ⟨"2", ["b", "c"]⟩, ⟨"3", ["a", "c"]⟩]
    { id := none, tags := some ["a", "c"] }
    (fun cid h => by cases h)).1
  rw [h]
  rfl

/-- C3: `add` on a present id fails with `DUPLICATE_ID`, `update` on an
absent id fails with `RECORD_NOT_FOUND`, and every error path of `add` or
`update` (validation failures included) leaves the store exactly as it
was. -/
theorem C3_add_update_all_or_nothing (st : Store.Storage) (r : Store.Rec) :
    (Store.isBlank r.id = false → Store.hasId st r.id = true →
      (Store.add st r).2 = .error .DUPLICATE_ID) ∧
    (Store.isBlank r.id = false → Store.hasId st r.id = false →
      (Store.update st r).2 = .error .RECORD_NOT_FOUND) ∧
    (∀ e, (Store.add st r).2 = .error e → (Store.add st r).1 = st) ∧
    (∀ e, (Store.update st r).2 = .error e → (Store.update st r).1 = st) := by
  refine ⟨?_, ?_, ?_, ?_⟩
  · intro hv hp
    simp [Store.add, Store.validateRecord, hv, hp]
  · intro hv hp
    simp [Store.update, Store.validateRecord, hv, hp]
  · intro e h
    by_cases hv : Store.isBlank r.id
    · simp [Store.add, Store.validateRecord, hv]
    · by_cases hp : Store.hasId st r.id
      · simp [Store.add, Store.validateRecord, hv, hp]
      · simp [Store.add, Store.validateRecord, hv, hp] at h
  · intro e h
    by_cases hv : Store.isBlank r.id
    · simp [Store.update, Store.validateRecord, hv]
    · by_cases hp : Store.hasId st r.id
      · simp [Store.update, Store.validateRecord, hv, hp] at h
      · simp [Store.update, Store.validateRecord, hv, hp]

/-- Witness for C3 at concrete inputs. -/
theorem C3_add_update_all_or_nothing_witness :
    (Store.add [⟨"1", ["a"]⟩] ⟨"1", ["b"]⟩).2 = .error .DUPLICATE_ID ∧
    (Store.update [] ⟨"2", ["b"]⟩).2 = .error .RECORD_NOT_FOUND ∧
    (Store.add [⟨"1", ["a"]⟩] ⟨"1", ["b"]⟩).1 = [⟨"1", ["a"]⟩] := by
  refine ⟨(C3_add_update_all_or_nothing [⟨"1", ["a"]⟩] ⟨"1", ["b"]⟩).1
      (by decide) (by decide),
    (C3_add_update_all_or_nothing [] ⟨"2", ["b"]⟩).2.1
      (by decide) (by decide), ?_⟩
  exact (C3_add_update_all_or_nothing [⟨"1", ["a"]⟩] ⟨"1", ["b"]⟩).2.2.1
    .DUPLICATE_ID ((C3_add_update_all_or_nothing [⟨"1", ["a"]⟩]
      ⟨"1", ["b"]⟩).1 (by decide) (by decide))

/-- C8: `remove` raises `INVALID_ID` exactly on blank ids and otherwise
reports (and performs) the deletion without ever raising for an absent id;
after a successful `add` the first `remove` of that id returns `true` and
every subsequent one returns `false`; `exists` returns `false` on the
malformed (empty) id and on any absent id, and never raises (it is a total
boolean predicate). -/
theorem C8_remove_exists_semantics (st : Store.Storage) (id : String)
    (r : Store.Rec) :
    (Store.isBlank id = true →
      Store.remove st id = (st, .error .INVALID_ID)) ∧
    (Store.isBlank id = false →
      (Store.remove st id).2 = .ok (Store.hasId st id) ∧
      (Store.remove st id).1 = Store.deleteRec st id) ∧
    (Store.existsId st "" = false) ∧
    (Store.hasId st id = false → Store.existsId st id = false) ∧
    (Store.isBlank r.id = false → Store.hasId st r.id = false →
      (Store.remove (Store.add st r).1 r.id).2 = .ok true ∧
      (Store.remove (Store.remove (Store.add st r).1 r.id).1 r.id).2 =
        .ok false) := by
  refine ⟨?_, ?_, ?_, ?_, ?_⟩
  · intro h
    simp [Store.remove, h]
  · intro h
    simp [Store.remove, h]
  · simp [Store.existsId]
  · intro h
    unfold Store.existsId
    rw [h]
    simp
  · intro hv hf
    have hadd : (Store.add st r).1 = st ++ [r] := by
      rw [Store.add_fresh_eq hv hf]
    rw [hadd]
    have h1 : (Store.remove (st ++ [r]) r.id).2 = .ok true := by
      simp [Store.remove, hv, Store.hasId_append_self]
    have hstate : (Store.remove (st ++ [r]) r.id).1 = st := by
      simp [Store.remove, hv, Store.deleteRec_append_self hf]
    refine ⟨h1, ?_⟩
    rw [hstate]
    simp [Store.remove, hv, hf]

/-- Witness for C8 at concrete inputs. -/
theorem C8_remove_exists_semantics_witness :
    Store.remove [⟨"1", ["a"]⟩] "  " = ([⟨"1", ["a"]⟩], .error .INVALID_ID) ∧
    Store.existsId [⟨"1", ["a"]⟩] "2" = false ∧
    (Store.remove (Store.add [] ⟨"1", ["a"]⟩).1 "1").2 = .ok true ∧
    (Store.remove (Store.remove (Store.add [] ⟨"1", ["a"]⟩).1 "1").1
      "1").2 = .ok false := by
  refine ⟨(C8_remove_exists_semantics [⟨"1", ["a"]⟩] "  " ⟨"1", ["a"]⟩).1
      (by decide),
    (C8_remove_exists_semantics [⟨"1", ["a"]⟩] "2" ⟨"1", ["a"]⟩).2.2.2.1
      (by decide), ?_, ?_⟩
  · exact ((C8_remove_exists_semantics [] "1" ⟨"1", ["a"]⟩).2.2.2.2
      (by decide) (by decide)).1
  · exact ((C8_remove_exists_semantics [] "1" ⟨"1", ["a"]⟩).2.2.2.2
      (by decide) (by decide)).2

namespace Debounce

/-- Is an event a wrapped call? -/
def isCallEv {κ α : Type} : DebEvent κ α → Bool
  | .call _ _ _ => true
  | _ => false

/-- Number of wrapped calls in a trace. -/
def countCalls {κ α : Type} (es : List (DebEvent κ α)) : Nat :=
  es.countP isCallEv

/-- Delivery potential: target invocations already performed plus the one
recorded argument list still awaiting delivery, if any. -/
def pot {κ α : Type} (s : DebState κ α) : Nat :=
  s.log.length + (if s.lastArgs.isSome then 1 else 0)

variable {κ α ρ : Type}

theorem pot_dInvoke (fn : Option κ → α → ρ) (t : Nat) (s : DebState κ α) :
    pot (dInvoke fn t s).1 = pot s := by
  cases h : s.lastArgs <;> simp [dInvoke, h, pot]

theorem pot_dFire (fn : Option κ → α → ρ) (s : DebState κ α) :
    pot (dFire fn s) = pot s := by
  cases h : s.scheduled <;> cases h2 : s.lastArgs <;>
    simp [dFire, dInvoke, pot, h, h2]

theorem pot_dCall (wait t : Nat) (c : κ) (a : α) (s : DebState κ α) :
    pot (dCall wait t c a s) ≤ pot s + 1 := by
  cases h : s.timeoutSet <;> cases h2 : s.lastArgs <;>
    simp [dCall, pot, h, h2]

theorem pot_dFlush (fn : Option κ → α → ρ) (t : Nat) (s : DebState κ α) :
    pot (dFlush fn t s).1 = pot s := by
  cases h : s.timeoutSet <;> cases h2 : s.lastArgs <;>
    simp [dFlush, dInvoke, pot, h, h2]

theorem pot_dForceNext (fn : Option κ → α → ρ) (t : Nat)
    (s : DebState κ α) :
    pot (dForceNext fn t s) = pot s := by
  cases h : s.timeoutSet <;> cases h2 : s.lastArgs <;>
    simp [dForceNext, dInvoke, pot, h, h2]

theorem pot_dCancel (s : DebState κ α) : pot (dCancel s) ≤ pot s := by
  cases h : s.timeoutSet <;> cases h2 : s.lastArgs <;>
    simp [dCancel, pot, h, h2]

theorem pot_preFire (fn : Option κ → α → ρ) (s : DebState κ α) (t : Nat) :
    pot (match s.scheduled with
      | some u => if u ≤ t then dFire fn s else s
      | none => s) = pot s := by
  cases h : s.scheduled with
  | none => rfl
  | some u =>
    simp only [h]
    split
    · exact pot_dFire fn s
    · rfl

theorem pot_dStep (fn : Option κ → α → ρ) (wait : Nat) (s : DebState κ α)
    (e : DebEvent κ α) :
    pot (dStep fn wait s e) ≤ pot s + (if isCallEv e then 1 else 0) := by
  unfold dStep
  cases e with
  | call t c a =>
    simp only [isCallEv, if_pos]
    exact le_trans (pot_dCall wait t c a _)
      (by rw [pot_preFire fn s (DebEvent.time (.call t c a))])
  | flush t =>
    simp only [isCallEv]
    rw [pot_dFlush, pot_preFire fn s (DebEvent.time (.flush t))]
    simp
  | forceNext t =>
    simp only [isCallEv]
    rw [pot_dForceNext, pot_preFire fn s (DebEvent.time (.forceNext t))]
    simp
  | cancel t =>
    simp only [isCallEv]
    exact le_trans (pot_dCancel _)
      (by rw [pot_preFire fn s (DebEvent.time (.cancel t))]; simp)

theorem pot_foldl (fn : Option κ → α → ρ) (wait : Nat) :
    ∀ (es : List (DebEvent κ α)) (s : DebState κ α),
      pot (es.foldl (dStep fn wait) s) ≤ pot s + countCalls es := by
  intro es
  induction es with
  | nil => intro s; simp [countCalls]
  | cons e es ih =>
    intro s
    have h1 := ih (dStep fn wait s e)
    have h2 := pot_dStep fn wait s e
    simp only [List.foldl, countCalls, List.countP_cons] at *
    cases hc : isCallEv e <;> simp [hc] at h2 ⊢ <;> omega

theorem pot_dRun (fn : Option κ → α → ρ) (wait : Nat)
    (es : List (DebEvent κ α)) (endT : Nat) :
    pot (dRun fn wait es endT) ≤ countCalls es := by
  unfold dRun
  have h := pot_foldl fn wait es (dInit κ α)
  have hinit : pot (dInit κ α) = 0 := rfl
  rw [hinit, Nat.zero_add] at h
  exact le_trans (le_of_eq (pot_preFire fn _ endT)) h

end Debounce

/-- C6: with `wait = 100`, two wrapped calls 50 time-units apart (the second
cancelling and re-arming the first's timer) produce exactly one target
invocation, carrying the second call's context and arguments, fired 100
time-units after the second call. -/
theorem C6_two_calls_one_invocation {κ α ρ : Type}
    (fn : Option κ → α → ρ) (c1 c2 : κ) (a b : α) (t0 : Nat) :
    (Debounce.dRun fn 100 [.call t0 c1 a, .call (t0 + 50) c2 b]
      (t0 + 150)).log = [(t0 + 150, some c2, b)] := by
  simp [Debounce.dRun, Debounce.dStep, Debounce.dCall, Debounce.dFire,
    Debounce.dInvoke, Debounce.dInit, Debounce.DebEvent.time]

/-- C9: at-most-once delivery.  Over any trace of wrapped calls, timer
firings, `flush`, `forceNext` and `cancel`, the target is invoked at most
once per wrapped call (invoking clears the recorded arguments); and from a
state with no recorded arguments, `flush` returns `undefined` and neither
`flush` nor `forceNext` invokes the target. -/
theorem C9_at_most_once_delivery {κ α ρ : Type}
    (fn : Option κ → α → ρ) (wait : Nat) :
    (∀ (es : List (Debounce.DebEvent κ α)) (endT : Nat),
      ((Debounce.dRun fn wait es endT).log).length ≤
        Debounce.countCalls es) ∧
    (∀ (t : Nat) (s : Debounce.DebState κ α), s.lastArgs = none →
      (Debounce.dFlush fn t s).2 = none ∧
      (Debounce.dFlush fn t s).1.log = s.log ∧
      (Debounce.dForceNext fn t s).log = s.log) := by
  constructor
  · intro es endT
    have h := Debounce.pot_dRun fn wait es endT
    unfold Debounce.pot at h
    omega
  · intro t s h
    cases ht : s.timeoutSet <;>
      simp [Debounce.dFlush, Debounce.dForceNext, Debounce.dInvoke, h, ht]

/-- Witness for C9 at a concrete input. -/
theorem C9_at_most_once_delivery_witness :
    ((Debounce.dRun (fun (_ : Option Nat) (_ : Nat) => (0 : Nat)) 100
      [.call 0 1 7, .flush 10, .flush 20] 1000).log).length ≤ 1 ∧
    (Debounce.dFlush (fun (_ : Option Nat) (_ : Nat) => (0 : Nat)) 5
      (Debounce.dInit Nat Nat)).2 = none := by
  constructor
  · exact (C9_at_most_once_delivery
      (fun (_ : Option Nat) (_ : Nat) => (0 : Nat)) 100).1
      [.call 0 1 7, .flush 10, .flush 20] 1000
  · exact ((C9_at_most_once_delivery
      (fun (_ : Option Nat) (_ : Nat) => (0 : Nat)) 100).2 5
      (Debounce.dInit Nat Nat) rfl).1

/-- C5: the two sampled debounce variants are not behaviorally equivalent.
Concretely, a fast-path call at time 100 (wait 100, fresh instance, so 100
time-units have elapsed since the last firing) invokes the target
synchronously inside the wrapped call and returns its result, while the
always-deferred variant's wrapped call never extends the invocation log,
whatever the state. -/
theorem C5_variants_not_equivalent :
    ((Debounce.fCall (fun (_ : Option Nat) (_ : Nat) => (42 : Nat))
        100 100 0 7 (Debounce.fInit Nat Nat)).1.log = [(100, some 0, 7)] ∧
      (Debounce.fCall (fun (_ : Option Nat) (_ : Nat) => (42 : Nat))
        100 100 0 7 (Debounce.fInit Nat Nat)).2 = some 42) ∧
    ∀ (κ α : Type) (wait t : Nat) (c : κ) (a : α)
      (s : Debounce.DebState κ α),
      (Debounce.dCall wait t c a s).log = s.log := by
  refine ⟨⟨by decide, by decide⟩, ?_⟩
  intro κ α wait t c a s
  cases h : s.timeoutSet <;> simp [Debounce.dCall, h]

/-- C10 (amended): the first wrapped call of the fast-path variant, made at
wall-clock time `t`, invokes the target synchronously exactly when
`t ≥ wait` (since `lastCallTime` starts at `0`); with a realistic
`Date.now()` this always holds, but not for arbitrary clocks. -/
theorem C10_first_call_fast_path {κ α ρ : Type} (fn : Option κ → α → ρ)
    (wait t : Nat) (c : κ) (a : α) :
    (Debounce.fCall fn wait t c a (Debounce.fInit κ α)).1.log =
      (if wait ≤ t then [(t, some c, a)] else []) ∧
    (Debounce.fCall fn wait t c a (Debounce.fInit κ α)).2 =
      (if wait ≤ t then some (fn (some c) a) else none) ∧
    (Debounce.fCall fn wait t c a (Debounce.fInit κ α)).1.scheduled =
      (if wait ≤ t then none else some (t + wait)) := by
  by_cases h : wait ≤ t <;>
    simp [Debounce.fCall, Debounce.fInit, Debounce.fInvoke, h]

/-- C10 counterexample: with `wait = 100`, the very first wrapped call made
at clock time `0` does *not* invoke the target synchronously — it arms the
timer for time 100 instead — refuting "always invokes synchronously". -/
theorem C10_first_call_counterexample :
    (Debounce.fCall (fun (_ : Option Nat) (_ : Nat) => (0 : Nat))
      100 0 0 7 (Debounce.fInit Nat Nat)).1.log = [] ∧
    (Debounce.fCall (fun (_ : Option Nat) (_ : Nat) => (0 : Nat))
      100 0 0 7 (Debounce.fInit Nat Nat)).2 = none ∧
    (Debounce.fCall (fun (_ : Option Nat) (_ : Nat) => (0 : Nat))
      100 0 0 7 (Debounce.fInit Nat Nat)).1.scheduled = some 100 := by
  decide

/-- C7 (amended): when a call is pending (recorded arguments with the
timer variable set), `flush` invokes the target immediately with the last
recorded arguments and context, disarms the timer, and returns the target's
result — in both variants.  When nothing is pending, `flush` returns
nothing and invokes nothing, and in the always-deferred variant leaves the
log and recorded arguments unchanged; but in the fast-path variant a flush
that still sees a stale timer variable also overwrites `lastCallTime` with
the current time. -/
theorem C7_flush_semantics {κ α ρ : Type} (fn : Option κ → α → ρ) (t : Nat)
    (s : Debounce.DebState κ α) (fs : Debounce.FastState κ α) :
    (∀ a, s.lastArgs = some a → s.timeoutSet = true →
      (Debounce.dFlush fn t s).2 = some (fn s.lastThis a) ∧
      (Debounce.dFlush fn t s).1.lastArgs = none ∧
      (Debounce.dFlush fn t s).1.scheduled = none ∧
      (Debounce.dFlush fn t s).1.timeoutSet = false ∧
      (Debounce.dFlush fn t s).1.log = s.log ++ [(t, s.lastThis, a)]) ∧
    (s.lastArgs = none →
      (Debounce.dFlush fn t s).2 = none ∧
      (Debounce.dFlush fn t s).1.log = s.log ∧
      (Debounce.dFlush fn t s).1.lastArgs = none) ∧
    (∀ a, fs.lastArgs = some a → fs.timeoutSet = true →
      (Debounce.fFlush fn t fs).2 = some (fn fs.lastThis a) ∧
      (Debounce.fFlush fn t fs).1.lastArgs = none ∧
      (Debounce.fFlush fn t fs).1.scheduled = none ∧
      (Debounce.fFlush fn t fs).1.log = fs.log ++ [(t, fs.lastThis, a)]) ∧
    (fs.lastArgs = none →
      (Debounce.fFlush fn t fs).2 = none ∧
      (Debounce.fFlush fn t fs).1.log = fs.log ∧
      (fs.timeoutSet = true →
        (Debounce.fFlush fn t fs).1.lastCallTime = t)) := by
  refine ⟨?_, ?_, ?_, ?_⟩
  · intro a ha ht
    simp [Debounce.dFlush, Debounce.dInvoke, ha, ht]
  · intro ha
    cases ht : s.timeoutSet <;>
      simp [Debounce.dFlush, Debounce.dInvoke, ha, ht]
  · intro a ha ht
    simp [Debounce.fFlush, Debounce.fInvoke, ha, ht]
  · intro ha
    cases ht : fs.timeoutSet <;>
      simp [Debounce.fFlush, Debounce.fInvoke, ha, ht]

/-- Witness for C7 at concrete inputs: a pending deferred flush delivers
and returns the target's value; an idle flush returns nothing. -/
theorem C7_flush_semantics_witness :
    (Debounce.dFlush (fun (_ : Option Nat) (_ : Nat) => (42 : Nat)) 30
      { timeoutSet := true, scheduled := some 100, lastArgs := some 7,
        lastThis := some 1, log := [] }).2 = some 42 ∧
    (Debounce.dFlush (fun (_ : Option Nat) (_ : Nat) => (42 : Nat)) 30
      (Debounce.dInit Nat Nat)).2 = none := by
  constructor
  · exact ((C7_flush_semantics (fun (_ : Option Nat) (_ : Nat) => (42 : Nat))
      30 { timeoutSet := true, scheduled := some 100, lastArgs := some 7,
           lastThis := some 1, log := [] } (Debounce.fInit Nat Nat)).1 7
      rfl rfl).1
  · exact ((C7_flush_semantics (fun (_ : Option Nat) (_ : Nat) => (42 : Nat))
      30 (Debounce.dInit Nat Nat) (Debounce.fInit Nat Nat)).2.1 rfl).1

/-- C7 counterexample: in the fast-path variant, after a call at time 0
(wait 100) whose timer fires naturally at time 100, nothing is pending any
more, yet `flush` at time 150 — while returning `undefined` and invoking
nothing — still mutates the controller state: it overwrites `lastCallTime`
with 150, observably changing whether a later call takes the synchronous
fast path.  This refutes "if nothing is pending, flush has no side effect
on the controller's state". -/
theorem C7_flush_counterexample :
    (Debounce.fFire (fun (_ : Option Nat) (_ : Nat) => (0 : Nat))
        (Debounce.fCall (fun (_ : Option Nat) (_ : Nat) => (0 : Nat))
          100 0 0 7 (Debounce.fInit Nat Nat)).1).lastArgs = none ∧
    (Debounce.fFlush (fun (_ : Option Nat) (_ : Nat) => (0 : Nat)) 150
      (Debounce.fFire (fun (_ : Option Nat) (_ : Nat) => (0 : Nat))
        (Debounce.fCall (fun (_ : Option Nat) (_ : Nat) => (0 : Nat))
          100 0 0 7 (Debounce.fInit Nat Nat)).1)).2 = none ∧
    (Debounce.fFire (fun (_ : Option Nat) (_ : Nat) => (0 : Nat))
        (Debounce.fCall (fun (_ : Option Nat) (_ : Nat) => (0 : Nat))
          100 0 0 7 (Debounce.fInit Nat Nat)).1).lastCallTime = 100 ∧
    (Debounce.fFlush (fun (_ : Option Nat) (_ : Nat) => (0 : Nat)) 150
      (Debounce.fFire (fun (_ : Option Nat) (_ : Nat) => (0 : Nat))
        (Debounce.fCall (fun (_ : Option Nat) (_ : Nat) => (0 : Nat))
          100 0 0 7 (Debounce.fInit Nat Nat)).1)).1.lastCallTime = 150 := by
  decide

namespace RefModel

theorem hRead_hWrite_ne {h : Heap} {a b : Nat} (v : List String)
    (hne : a ≠ b) : hRead (hWrite h a v) b = hRead h b := by
  simp [hRead, hWrite, List.getD, List.getElem?_set_ne hne]

theorem hRead_append {h : Heap} {b : Nat} (hb : b < h.length) (l : Heap) :
    hRead (h ++ l) b = hRead h b := by
  simp [hRead, List.getD, List.getElem?_append_left hb]

/-- The egress-copy loop only extends the heap: older addresses keep their
contents. -/
theorem fullQueryAux_ext :
    ∀ (st : List RecObj) (h : Heap),
      h.length ≤ (fullQueryAux h st).1.length ∧
      ∀ b, b < h.length → hRead (fullQueryAux h st).1 b = hRead h b := by
  intro st
  induction st with
  | nil => intro h; exact ⟨le_refl _, fun b _ => rfl⟩
  | cons r rest ih =>
    intro h
    have hlen : (h ++ [hRead h r.tags]).length = h.length + 1 := by simp
    obtain ⟨ihlen, ihread⟩ := ih (h ++ [hRead h r.tags])
    constructor
    · simp only [fullQueryAux, copyOut, hAlloc]
      omega
    · intro b hb
      have hb' : b < (h ++ [hRead h r.tags]).length := by
        rw [hlen]; omega
      simp only [fullQueryAux, copyOut, hAlloc]
      rw [ihread b hb', hRead_append hb]

/-- Every record object handed out by the egress-copy loop carries a fresh
address (allocated at or after the initial heap end). -/
theorem fullQueryAux_fresh :
    ∀ (st : List RecObj) (h : Heap),
      ∀ q ∈ (fullQueryAux h st).2, h.length ≤ q.tags := by
  intro st
  induction st with
  | nil => intro h q hq; cases hq
  | cons r rest ih =>
    intro h q hq
    simp only [fullQueryAux, copyOut, hAlloc] at hq
    rcases List.mem_cons.mp hq with hq | hq
    · subst hq; exact le_refl _
    · have := ih (h ++ [hRead h r.tags]) q hq
      simp at this
      omega

/-- Two heaps that agree below the store's addresses give the same
observable store contents. -/
theorem obs_congr {h h' : Heap} {st : List RecObj}
    (hst : ∀ s ∈ st, s.tags < h.length)
    (hre : ∀ b, b < h.length → hRead h' b = hRead h b) :
    obs h' st = obs h st :=
  List.map_congr_left (fun s hs => by rw [hre s.tags (hst s hs)])

end RefModel

/-- C4 (amended): in the validated store (part_001) every record crossing
the boundary is deep-copied at the tag-array level, so (ingress) mutating
the tags array of a record passed to `add` after the call returns changes
nothing a query can observe, and (egress) the record objects handed out by
the copying query loop carry fresh arrays whose mutation leaves the stored
contents untouched.  The hypotheses say the store owns in-heap addresses
not aliased to the caller's array — which the copying `add` establishes
for every store it builds.  (The basic variant of
`src/src/storage/in-memory.ts` instead stores and returns raw references:
see the counterexample.) -/
theorem C4_copy_isolation :
    (∀ (h : RefModel.Heap) (st : List RefModel.RecObj)
        (r : RefModel.RecObj) (v : List String),
      (∀ s ∈ st, s.tags < h.length) →
      (∀ s ∈ st, s.tags ≠ r.tags) →
      r.tags < h.length →
      (RefModel.fullAdd h st r).2 = .ok () →
      RefModel.obs
          (RefModel.hWrite (RefModel.fullAdd h st r).1.1 r.tags v)
          (RefModel.fullAdd h st r).1.2 =
        RefModel.obs (RefModel.fullAdd h st r).1.1
          (RefModel.fullAdd h st r).1.2) ∧
    (∀ (h : RefModel.Heap) (st : List RefModel.RecObj),
      (∀ s ∈ st, s.tags < h.length) →
      RefModel.obs (RefModel.fullQueryAux h st).1 st = RefModel.obs h st ∧
      (∀ q ∈ (RefModel.fullQueryAux h st).2, ∀ v,
        RefModel.obs
            (RefModel.hWrite (RefModel.fullQueryAux h st).1 q.tags v) st =
          RefModel.obs (RefModel.fullQueryAux h st).1 st)) := by
  constructor
  · intro h st r v hst hnal hr hok
    by_cases hb : Store.isBlank r.id
    · simp [RefModel.fullAdd, hb] at hok
    · by_cases hd : st.any (fun s => s.id == r.id)
      · simp [RefModel.fullAdd, hb, hd] at hok
      · have hfa : RefModel.fullAdd h st r =
            ((h ++ [RefModel.hRead h r.tags],
              st ++ [⟨r.id, h.length⟩]), .ok ()) := by
          simp [RefModel.fullAdd, hb, hd, RefModel.copyIn, RefModel.hAlloc]
        rw [hfa]
        apply List.map_congr_left
        intro s hs
        have hne : r.tags ≠ s.tags := by
          rcases List.mem_append.mp hs with hs | hs
          · exact fun he => hnal s hs he.symm
          · have : s = (⟨r.id, h.length⟩ : RefModel.RecObj) := by
              simpa using hs
            rw [this]
            exact Nat.ne_of_lt hr
        rw [RefModel.hRead_hWrite_ne v hne]
  · intro h st hst
    obtain ⟨hlen, hread⟩ := RefModel.fullQueryAux_ext st h
    constructor
    · exact RefModel.obs_congr hst hread
    · intro q hq v
      apply List.map_congr_left
      intro s hs
      have hne : q.tags ≠ s.tags := by
        have h1 := RefModel.fullQueryAux_fresh st h q hq
        have h2 := hst s hs
        omega
      rw [RefModel.hRead_hWrite_ne v hne]

/-- Witness for C4 at a concrete input: caller mutates their array after a
validated-store `add`; the observable store contents do not change. -/
theorem C4_copy_isolation_witness :
    RefModel.obs
        (RefModel.hWrite (RefModel.fullAdd [["a"]] [] ⟨"1", 0⟩).1.1 0 ["b"])
        (RefModel.fullAdd [["a"]] [] ⟨"1", 0⟩).1.2 =
      RefModel.obs (RefModel.fullAdd [["a"]] [] ⟨"1", 0⟩).1.1
        (RefModel.fullAdd [["a"]] [] ⟨"1", 0⟩).1.2 :=
  C4_copy_isolation.1 [["a"]] [] ⟨"1", 0⟩ ["b"]
    (by simp) (by simp) (by decide) rfl

/-- C4 counterexample: the basic variant
(`src/src/storage/in-memory.ts`) stores the caller's record object by
reference, so mutating the tags array that was passed to `add` — after the
call returned — changes what a subsequent `query` returns: the queried
contents flip from `["a"]` to `["b"]`.  This refutes the claim's "every
record crossing the store boundary is deep-copied" for that variant. -/
theorem C4_copy_isolation_counterexample :
    (RefModel.basicAdd [["a"]] [] ⟨"1", 0⟩).2 = .ok () ∧
    RefModel.obs [["a"]]
        (RefModel.basicQueryAll
          (RefModel.basicAdd [["a"]] [] ⟨"1", 0⟩).1.2) = [("1", ["a"])] ∧
    RefModel.obs (RefModel.hWrite [["a"]] 0 ["b"])
        (RefModel.basicQueryAll
          (RefModel.basicAdd [["a"]] [] ⟨"1", 0⟩).1.2) = [("1", ["b"])] :=
  ⟨rfl, rfl, rfl⟩
